import Mathlib

/-!
Shallow embedding of the HealthChain backend (backend/index.js): consent
registry, encrypted record store, audit trail and durable ledger, with the
HTTP routes modelled as state-passing functions.

Bytes are `List Nat` (each element < 256 where it matters).  The AES-256-CBC
block permutation provided by the crypto library is abstracted as a pair of
functions `E`/`D` on 16-byte blocks; CBC chaining, PKCS#7 padding and hex
serialisation are modelled concretely, following the source.  Randomness
(IVs, transaction ids, record ids) and timestamps are passed as explicit
arguments, since the source draws them from `crypto.randomBytes` / the clock.
-/

namespace HealthChain

/-- Lowercase hex digit for a value 0..15, as `Buffer.toString("hex")` emits. -/
def hexDigitChar (n : Nat) : Char :=
  if n < 10 then Char.ofNat (48 + n) else Char.ofNat (87 + n)

/-- Numeric value of a hex digit character, `none` on a non-hex character. -/
def hexCharVal (c : Char) : Option Nat :=
  if 48 ≤ c.toNat ∧ c.toNat ≤ 57 then some (c.toNat - 48)
  else if 97 ≤ c.toNat ∧ c.toNat ≤ 102 then some (c.toNat - 87)
  else if 65 ≤ c.toNat ∧ c.toNat ≤ 70 then some (c.toNat - 55)
  else none

/-- `Buffer.toString("hex")`: two lowercase hex digits per byte. -/
def hexEncodeList : List Nat → List Char
  | [] => []
  | b :: rest => hexDigitChar (b / 16) :: hexDigitChar (b % 16) :: hexEncodeList rest

/-- `Buffer.from(str, "hex")`: decode digit pairs, stopping at the first
invalid pair or odd leftover character (Node truncates there). -/
def hexDecodeList : List Char → List Nat
  | hi :: lo :: rest =>
    match hexCharVal hi, hexCharVal lo with
    | some h, some l => (16 * h + l) :: hexDecodeList rest
    | _, _ => []
  | _ => []

def hexEncode (l : List Nat) : String := ⟨hexEncodeList l⟩

def hexDecode (s : String) : List Nat := hexDecodeList s.data

/-- Bytewise xor of two buffers (used by CBC chaining). -/
def xorBytes (a b : List Nat) : List Nat := List.zipWith (· ^^^ ·) a b

/-- PKCS#7 padding to the 16-byte AES block size, as OpenSSL applies in
`cipher.final()`: append k copies of k where 1 ≤ k ≤ 16. -/
def padBlock (x : List Nat) : List Nat :=
  x ++ List.replicate (16 - x.length % 16) (16 - x.length % 16)

/-- PKCS#7 unpadding, as OpenSSL checks in `decipher.final()`: the last byte
k must satisfy 1 ≤ k ≤ 16 and the last k bytes must all equal k. -/
def unpadBlock (x : List Nat) : Option (List Nat) :=
  match x.getLast? with
  | none => none
  | some k =>
    if 1 ≤ k ∧ k ≤ 16 ∧ k ≤ x.length ∧ (x.drop (x.length - k)).all (· == k) then
      some (x.take (x.length - k))
    else none

/-- CBC-mode encryption of an already padded plaintext: each 16-byte block is
xored with the previous ciphertext block (initially the IV) and passed through
the block permutation `E`. -/
def cbcEncrypt (E : List Nat → List Nat) (prev pt : List Nat) : List Nat :=
  if h : pt = [] then []
  else
    let c := E (xorBytes (pt.take 16) prev)
    c ++ cbcEncrypt E c (pt.drop 16)
termination_by pt.length
decreasing_by
  simp only [List.length_drop]
  cases pt with
  | nil => exact absurd rfl h
  | cons a l => simp; omega

/-- CBC-mode decryption: each 16-byte ciphertext block goes through `D` and is
xored with the previous ciphertext block (initially the IV). -/
def cbcDecrypt (D : List Nat → List Nat) (prev ct : List Nat) : List Nat :=
  if h : ct = [] then []
  else
    xorBytes (D (ct.take 16)) prev ++ cbcDecrypt D (ct.take 16) (ct.drop 16)
termination_by ct.length
decreasing_by
  simp only [List.length_drop]
  cases ct with
  | nil => exact absurd rfl h
  | cons a l => simp; omega

/-- The `{ iv, data }` object `encryptBuffer` returns and `add-record`
persists as JSON next to the record metadata: both fields hex strings. -/
structure EncFile where
  iv : String
  data : String
  deriving Repr, DecidableEq

/-- `encryptBuffer(buffer)` from index.js, with the fresh random IV passed in
and the AES block permutation abstracted as `E`. -/
def encryptBuffer (E : List Nat → List Nat) (ivBytes buffer : List Nat) : EncFile :=
  { iv := hexEncode ivBytes, data := hexEncode (cbcEncrypt E ivBytes (padBlock buffer)) }

/-- `decryptBuffer(hexData, hexIv)` from index.js: decode the hex fields,
CBC-decrypt, strip padding.  `none` models `createDecipheriv`/`final()`
throwing (bad IV length, partial block, or bad padding). -/
def decryptBuffer (D : List Nat → List Nat) (hexData hexIv : String) : Option (List Nat) :=
  let iv := hexDecode hexIv
  let ct := hexDecode hexData
  if iv.length = 16 ∧ ct.length % 16 = 0 then unpadBlock (cbcDecrypt D iv ct)
  else none

/-- A buffer all of whose entries are bytes. -/
def IsBytes (l : List Nat) : Prop := ∀ b ∈ l, b < 256

instance (l : List Nat) : Decidable (IsBytes l) := by
  unfold IsBytes; infer_instance

-- ==== Data model (the module-level mutable state of index.js) ====

structure Patient where
  patientId : String
  name : String
  deriving Repr, DecidableEq

structure Provider where
  providerId : String
  name : String
  deriving Repr, DecidableEq

/-- An entry of the `consents` list: `{ patientId, providerId, granted, timestamp }`. -/
structure Consent where
  patientId : String
  providerId : String
  granted : Bool
  timestamp : Nat
  deriving Repr, DecidableEq

/-- An entry of the `records` list: `{ recordId, patientId, providerId, filename, date, iv }`. -/
structure Rec where
  recordId : String
  patientId : String
  providerId : String
  filename : String
  date : Nat
  iv : String
  deriving Repr, DecidableEq

/-- An entry of the `audit` list: `{ txId, action, actor, target, timestamp }`. -/
structure AuditEntry where
  txId : String
  action : String
  actor : String
  target : String
  timestamp : Nat
  deriving Repr, DecidableEq

/-- A ledger entry, one constructor per object shape `addToLedger` receives
(each also carries the timestamp `addToLedger` stamps on it). -/
inductive LedgerEntry where
  | consentGranted (patientId providerId tx : String) (timestamp : Nat)
  | consentRevoked (patientId providerId tx : String) (timestamp : Nat)
  | recordAdded (recordId tx : String) (timestamp : Nat)
  | readRecords (patientId providerId tx : String) (timestamp : Nat)
  | downloadDecrypt (recordId tx actor : String) (timestamp : Nat)
  deriving Repr, DecidableEq

/-- The `tx` field every ledger entry carries. -/
def LedgerEntry.tx : LedgerEntry → String
  | .consentGranted _ _ t _ => t
  | .consentRevoked _ _ t _ => t
  | .recordAdded _ t _ => t
  | .readRecords _ _ t _ => t
  | .downloadDecrypt _ t _ _ => t

/-- The whole mutable state of the process: the five module-level lists plus
the uploads directory (filename ↦ persisted `{iv, data}` JSON blob). -/
structure ServerState where
  patients : List Patient
  providers : List Provider
  consents : List Consent
  records : List Rec
  audit : List AuditEntry
  ledger : List LedgerEntry
  storage : List (String × EncFile)
  deriving Repr, DecidableEq

/-- The typed failures the routes return (`res.status(4xx/500)` responses).
`invalidArgument` carries the response's error message. -/
inductive ApiErr where
  | invalidArgument (msg : String)
  | accessDenied
  | notFound
  | storageMissing
  | decryptionFailed
  deriving Repr, DecidableEq

/-- The record metadata projection `/api/records` returns (iv omitted). -/
structure RecMeta where
  recordId : String
  patientId : String
  providerId : String
  filename : String
  date : Nat
  deriving Repr, DecidableEq

def Rec.toMeta (r : Rec) : RecMeta :=
  { recordId := r.recordId, patientId := r.patientId, providerId := r.providerId,
    filename := r.filename, date := r.date }

-- ==== Operations (the routes of index.js, state passed explicitly) ====

/-- The consent check appearing in all three gated routes:
`consents.some(c => c.patientId === p && c.providerId === r && c.granted === true)`. -/
def isActive (consents : List Consent) (p r : String) : Bool :=
  consents.any fun c => c.patientId == p && c.providerId == r && c.granted

/-- `consents.filter(c => !(c.patientId === p && c.providerId === r))`. -/
def removePair (consents : List Consent) (p r : String) : List Consent :=
  consents.filter fun c => !(c.patientId == p && c.providerId == r)

/-- `fs.writeFileSync` into the uploads directory: overwrite any existing
file of the same name, else create it. -/
def writeBlob (storage : List (String × EncFile)) (name : String) (blob : EncFile) :
    List (String × EncFile) :=
  storage.filter (fun kv => kv.1 != name) ++ [(name, blob)]

/-- POST `/api/consent/grant`.  `tx` is the value `newTxId()` returns and
`now` the clock reading; both are drawn outside the model. -/
def grantConsent (s : ServerState) (patientId providerId tx : String) (now : Nat) :
    Except ApiErr String × ServerState :=
  if patientId == "" || providerId == "" then
    (.error (.invalidArgument "patientId & providerId required"), s)
  else
    (.ok tx,
      { s with
        consents := removePair s.consents patientId providerId ++
          [⟨patientId, providerId, true, now⟩],
        audit := s.audit ++ [⟨tx, "GRANT_CONSENT", patientId, providerId, now⟩],
        ledger := s.ledger ++ [.consentGranted patientId providerId tx now] })

/-- POST `/api/consent/revoke`. -/
def revokeConsent (s : ServerState) (patientId providerId tx : String) (now : Nat) :
    Except ApiErr String × ServerState :=
  if patientId == "" || providerId == "" then
    (.error (.invalidArgument "patientId & providerId required"), s)
  else
    (.ok tx,
      { s with
        consents := removePair s.consents patientId providerId ++
          [⟨patientId, providerId, false, now⟩],
        audit := s.audit ++ [⟨tx, "REVOKE_CONSENT", patientId, providerId, now⟩],
        ledger := s.ledger ++ [.consentRevoked patientId providerId tx now] })

/-- POST `/api/add-record`.  `file` is the uploaded plaintext (`none` when no
file field was sent), `tmpName` the multer temp filename, `randId` the
`crypto.randomBytes(8).toString("hex")` draw, `ivBytes` the fresh IV. -/
def addRecord (E : List Nat → List Nat) (s : ServerState)
    (patientId providerId : String) (file : Option (List Nat))
    (tmpName randId tx : String) (ivBytes : List Nat) (now : Nat) :
    Except ApiErr Rec × ServerState :=
  if patientId == "" || providerId == "" then
    (.error (.invalidArgument "patientId & providerId required"), s)
  else
    match file with
    | none => (.error (.invalidArgument "file required"), s)
    | some buf =>
      if isActive s.consents patientId providerId then
        let encrypted := encryptBuffer E ivBytes buf
        let encFilename := tmpName ++ ".enc"
        let r : Rec := ⟨"0x" ++ randId, patientId, providerId, encFilename, now, encrypted.iv⟩
        (.ok r,
          { s with
            storage := writeBlob s.storage encFilename encrypted,
            records := s.records ++ [r],
            audit := s.audit ++ [⟨tx, "ADD_RECORD", providerId, r.recordId, now⟩],
            ledger := s.ledger ++ [.recordAdded r.recordId tx now] })
      else (.error .accessDenied, s)

/-- GET `/api/records/:patientId/:providerId`. -/
def listRecords (s : ServerState) (patientId providerId tx : String) (now : Nat) :
    Except ApiErr (List RecMeta) × ServerState :=
  if isActive s.consents patientId providerId then
    (.ok ((s.records.filter fun r => r.patientId == patientId).map Rec.toMeta),
      { s with
        audit := s.audit ++ [⟨tx, "READ_RECORDS", providerId, patientId, now⟩],
        ledger := s.ledger ++ [.readRecords patientId providerId tx now] })
  else (.error .accessDenied, s)

/-- GET `/api/decrypt/:recordId?providerId=...`.  `D` is the block
permutation's inverse direction. -/
def decryptRecord (D : List Nat → List Nat) (s : ServerState)
    (recordId providerId tx : String) (now : Nat) :
    Except ApiErr (List Nat) × ServerState :=
  if providerId == "" then
    (.error (.invalidArgument "providerId query param required"), s)
  else
    match s.records.find? (fun r => r.recordId == recordId) with
    | none => (.error .notFound, s)
    | some r =>
      if isActive s.consents r.patientId providerId then
        match (s.storage.find? (fun kv => kv.1 == r.filename)) with
        | none => (.error .storageMissing, s)
        | some kv =>
          match decryptBuffer D kv.2.data kv.2.iv with
          | none => (.error .decryptionFailed, s)
          | some plain =>
            (.ok plain,
              { s with
                audit := s.audit ++ [⟨tx, "DOWNLOAD_DECRYPT", providerId, recordId, now⟩],
                ledger := s.ledger ++ [.downloadDecrypt recordId tx providerId now] })
      else (.error .accessDenied, s)

/-- GET `/api/audit`. -/
def readAudit (s : ServerState) : List AuditEntry := s.audit

/-- GET `/api/ledger` (`readLedger()` re-reads the durable file; the model's
`ledger` field is that file's contents). -/
def readLedger (s : ServerState) : List LedgerEntry := s.ledger

-- ==== Operation traces ====

/-- One invocation of a state-mutating route, with the randomness and clock
values it consumes carried as data. -/
inductive Op where
  | grant (patientId providerId tx : String) (now : Nat)
  | revoke (patientId providerId tx : String) (now : Nat)
  | add (patientId providerId : String) (file : Option (List Nat))
      (tmpName randId tx : String) (ivBytes : List Nat) (now : Nat)
  | list (patientId providerId tx : String) (now : Nat)
  | decrypt (recordId providerId tx : String) (now : Nat)
  deriving Repr

/-- Apply one route invocation, keeping the resulting state. -/
def applyOp (E D : List Nat → List Nat) (s : ServerState) : Op → ServerState
  | .grant p r tx now => (grantConsent s p r tx now).2
  | .revoke p r tx now => (revokeConsent s p r tx now).2
  | .add p r file tmp rid tx iv now => (addRecord E s p r file tmp rid tx iv now).2
  | .list p r tx now => (listRecords s p r tx now).2
  | .decrypt rid pid tx now => (decryptRecord D s rid pid tx now).2

/-- Run a sequence of route invocations left to right. -/
def runOps (E D : List Nat → List Nat) (s : ServerState) (ops : List Op) : ServerState :=
  ops.foldl (applyOp E D) s

/-- One step of scanning a trace for the latest effective consent write to
the pair `(p, r)` (grant/revoke with a missing id is rejected and writes
nothing). -/
def consentWriteStep (p r : String) (acc : Option Bool) : Op → Option Bool
  | .grant p' r' _ _ =>
    if p' == p && r' == r && !(p' == "") && !(r' == "") then some true else acc
  | .revoke p' r' _ _ =>
    if p' == p && r' == r && !(p' == "") && !(r' == "") then some false else acc
  | _ => acc

/-- The boolean written by the last grant/revoke in `ops` that targets the
pair `(p, r)`, if any. -/
def lastConsentWrite (ops : List Op) (p r : String) : Option Bool :=
  ops.foldl (consentWriteStep p r) none

/-- At most one entry per (patientId, providerId) pair. -/
def PairUnique (cs : List Consent) : Prop :=
  List.Pairwise (fun a b => ¬(a.patientId = b.patientId ∧ a.providerId = b.providerId)) cs

/-- The bootstrap state of index.js: demo patient and provider, everything
else empty (the ledger file starts as `[]`). -/
def initialState : ServerState :=
  { patients := [⟨"pat-1", "John Doe"⟩], providers := [⟨"doc-1", "Dr. Smith"⟩],
    consents := [], records := [], audit := [], ledger := [], storage := [] }

/-- The bytes of "hello", as uploaded in the spec's concrete scenario. -/
def scnHello : List Nat := [104, 101, 108, 108, 111]

/-- A concrete 16-byte IV draw for the scenario. -/
def scnIv : List Nat := List.replicate 16 7

/-- Scenario state after `grantConsent("pat-1","doc-1")`. -/
def scnS1 : ServerState := (grantConsent initialState "pat-1" "doc-1" "tx1" 1).2

/-- Scenario state after the successful `addRecord("pat-1","doc-1", b"hello")`. -/
def scnS2 (E : List Nat → List Nat) : ServerState :=
  (addRecord E scnS1 "pat-1" "doc-1" (some scnHello) "up1" "ab12" "tx2" scnIv 2).2

/-- Scenario state after the successful `decryptRecord(R1.id,"doc-1")`. -/
def scnS3 (E D : List Nat → List Nat) : ServerState :=
  (decryptRecord D (scnS2 E) "0xab12" "doc-1" "tx3" 3).2

/-- Scenario state after `revokeConsent("pat-1","doc-1")`. -/
def scnS4 (E D : List Nat → List Nat) : ServerState :=
  (revokeConsent (scnS3 E D) "pat-1" "doc-1" "tx4" 4).2

-- ==== Cipher round-trip lemmas ====

theorem hexCharVal_hexDigitChar {d : Nat} (hd : d < 16) :
    hexCharVal (hexDigitChar d) = some d := by
  interval_cases d <;> decide

theorem hexDecodeList_hexEncodeList {l : List Nat} (h : IsBytes l) :
    hexDecodeList (hexEncodeList l) = l := by
  induction l with
  | nil => rfl
  | cons b rest ih =>
    have hb : b < 256 := h b (List.mem_cons_self b rest)
    have hrest : IsBytes rest := fun x hx => h x (List.mem_cons_of_mem b hx)
    have h1 : b / 16 < 16 := Nat.div_lt_of_lt_mul (by omega)
    have h2 : b % 16 < 16 := Nat.mod_lt b (by omega)
    simp [hexEncodeList, hexDecodeList, hexCharVal_hexDigitChar h1,
      hexCharVal_hexDigitChar h2, ih hrest]
    omega

theorem hexDecode_hexEncode {l : List Nat} (h : IsBytes l) :
    hexDecode (hexEncode l) = l := hexDecodeList_hexEncodeList h

theorem length_hexEncodeList (l : List Nat) :
    (hexEncodeList l).length = 2 * l.length := by
  induction l with
  | nil => rfl
  | cons b rest ih => simp [hexEncodeList, ih]; omega

theorem xorBytes_length (a b : List Nat) :
    (xorBytes a b).length = min a.length b.length := by
  simp [xorBytes]

theorem xorBytes_xorBytes_cancel :
    ∀ a b : List Nat, a.length = b.length → xorBytes (xorBytes a b) b = a := by
  intro a
  induction a with
  | nil => intro b _; cases b <;> rfl
  | cons x xs ih =>
    intro b hb
    cases b with
    | nil => simp at hb
    | cons y ys =>
      simp only [xorBytes, List.zipWith] at *
      rw [Nat.xor_assoc, Nat.xor_self, Nat.xor_zero, ih ys (by simpa using hb)]

theorem xorBytes_bytes : ∀ a b : List Nat, IsBytes a → IsBytes b → IsBytes (xorBytes a b) := by
  intro a
  induction a with
  | nil => intro b _ _ v hv; simp [xorBytes] at hv
  | cons x xs ih =>
    intro b ha hb v hv
    cases b with
    | nil => simp [xorBytes] at hv
    | cons y ys =>
      simp only [xorBytes, List.zipWith, List.mem_cons] at hv
      rcases hv with h | h
      · subst h
        have h1 : x < 256 := ha x (by simp)
        have h2 : y < 256 := hb y (by simp)
        have e : (256 : Nat) = 2 ^ 8 := by norm_num
        rw [e] at h1 h2 ⊢
        exact Nat.xor_lt_two_pow h1 h2
      · exact ih ys (fun u hu => ha u (by simp [hu])) (fun u hu => hb u (by simp [hu])) v h

theorem padBlock_length_mod (x : List Nat) : (padBlock x).length % 16 = 0 := by
  simp [padBlock]
  omega

theorem padBlock_bytes {x : List Nat} (h : IsBytes x) : IsBytes (padBlock x) := by
  intro v hv
  rcases List.mem_append.1 hv with h1 | h2
  · exact h v h1
  · have := List.eq_of_mem_replicate h2
    omega

theorem getLast?_replicate_pos {α : Type} (a : α) :
    ∀ n : Nat, 0 < n → (List.replicate n a).getLast? = some a := by
  intro n
  induction n with
  | zero => intro h; omega
  | succ m ih =>
    intro _
    cases m with
    | zero => rfl
    | succ k =>
      rw [List.replicate_succ, List.replicate_succ, List.getLast?_cons_cons,
        ← List.replicate_succ]
      exact ih (by omega)

theorem unpadBlock_padBlock (x : List Nat) : unpadBlock (padBlock x) = some x := by
  have hk1 : 1 ≤ 16 - x.length % 16 := by omega
  have hk16 : 16 - x.length % 16 ≤ 16 := by omega
  have hne : List.replicate (16 - x.length % 16) (16 - x.length % 16) ≠ [] := by
    simp [List.replicate_eq_nil_iff]
    omega
  have hlast : (padBlock x).getLast? = some (16 - x.length % 16) := by
    rw [padBlock, List.getLast?_append_of_ne_nil x hne]
    exact getLast?_replicate_pos _ _ (by omega)
  have hlen : (padBlock x).length = x.length + (16 - x.length % 16) := by
    simp [padBlock]
  have hdrop : (padBlock x).drop ((padBlock x).length - (16 - x.length % 16)) =
      List.replicate (16 - x.length % 16) (16 - x.length % 16) := by
    rw [hlen, Nat.add_sub_cancel, padBlock]
    rw [List.drop_left]
  have htake : (padBlock x).take ((padBlock x).length - (16 - x.length % 16)) = x := by
    rw [hlen, Nat.add_sub_cancel, padBlock]
    rw [List.take_left]
  rw [unpadBlock, hlast]
  dsimp only
  rw [if_pos]
  · rw [htake]
  · refine ⟨hk1, hk16, by omega, ?_⟩
    rw [hdrop]
    simp [List.all_eq_true]

theorem cbcEncrypt_length {E : List Nat → List Nat}
    (hElen : ∀ b, b.length = 16 → (E b).length = 16) :
    ∀ n pt prev, pt.length ≤ n → pt.length % 16 = 0 → prev.length = 16 →
      (cbcEncrypt E prev pt).length = pt.length := by
  intro n
  induction n with
  | zero =>
    intro pt prev hle _ _
    have : pt = [] := List.length_eq_zero.1 (by omega)
    subst this
    rw [cbcEncrypt]
    simp
  | succ m ih =>
    intro pt prev hle hmod hprev
    by_cases hpt : pt = []
    · subst hpt; rw [cbcEncrypt]; simp
    · have hlen16 : 16 ≤ pt.length := by
        have : pt.length ≠ 0 := fun h => hpt (List.length_eq_zero.1 h)
        omega
      rw [cbcEncrypt, dif_neg hpt]
      have htk : (pt.take 16).length = 16 := by simp; omega
      have hxor : (xorBytes (pt.take 16) prev).length = 16 := by
        rw [xorBytes_length, htk, hprev]
        simp
      have hc : (E (xorBytes (pt.take 16) prev)).length = 16 := hElen _ hxor
      rw [List.length_append, hc,
        ih (pt.drop 16) _ (by simp; omega) (by simp; omega) hc]
      simp
      omega

theorem cbcEncrypt_bytes {E : List Nat → List Nat}
    (hElen : ∀ b, b.length = 16 → (E b).length = 16)
    (hEbytes : ∀ b, b.length = 16 → IsBytes b → IsBytes (E b)) :
    ∀ n pt prev, pt.length ≤ n → pt.length % 16 = 0 → prev.length = 16 →
      IsBytes pt → IsBytes prev → IsBytes (cbcEncrypt E prev pt) := by
  intro n
  induction n with
  | zero =>
    intro pt prev hle _ _ _ _
    have : pt = [] := List.length_eq_zero.1 (by omega)
    subst this
    rw [cbcEncrypt]
    intro b hb
    simp at hb
  | succ m ih =>
    intro pt prev hle hmod hprev hptb hprevb
    by_cases hpt : pt = []
    · subst hpt; rw [cbcEncrypt]; intro b hb; simp at hb
    · have hlen16 : 16 ≤ pt.length := by
        have : pt.length ≠ 0 := fun h => hpt (List.length_eq_zero.1 h)
        omega
      rw [cbcEncrypt, dif_neg hpt]
      have htk : (pt.take 16).length = 16 := by simp; omega
      have hxor : (xorBytes (pt.take 16) prev).length = 16 := by
        rw [xorBytes_length, htk, hprev]
        simp
      have htkb : IsBytes (pt.take 16) := fun b hb => hptb b (List.take_subset 16 pt hb)
      have hxorb : IsBytes (xorBytes (pt.take 16) prev) := xorBytes_bytes _ _ htkb hprevb
      have hcb : IsBytes (E (xorBytes (pt.take 16) prev)) := hEbytes _ hxor hxorb
      have hc : (E (xorBytes (pt.take 16) prev)).length = 16 := hElen _ hxor
      intro b hb
      rcases List.mem_append.1 hb with h1 | h2
      · exact hcb b h1
      · exact ih (pt.drop 16) _ (by simp; omega) (by simp; omega) hc
          (fun u hu => hptb u (List.drop_subset 16 pt hu)) hcb b h2

theorem cbcDecrypt_cbcEncrypt {E D : List Nat → List Nat}
    (hDE : ∀ b, b.length = 16 → D (E b) = b)
    (hElen : ∀ b, b.length = 16 → (E b).length = 16) :
    ∀ n pt prev, pt.length ≤ n → pt.length % 16 = 0 → prev.length = 16 →
      cbcDecrypt D prev (cbcEncrypt E prev pt) = pt := by
  intro n
  induction n with
  | zero =>
    intro pt prev hle _ _
    have : pt = [] := List.length_eq_zero.1 (by omega)
    subst this
    rw [cbcEncrypt, cbcDecrypt]
    simp
  | succ m ih =>
    intro pt prev hle hmod hprev
    by_cases hpt : pt = []
    · subst hpt; rw [cbcEncrypt, cbcDecrypt]; simp
    · have hlen16 : 16 ≤ pt.length := by
        have : pt.length ≠ 0 := fun h => hpt (List.length_eq_zero.1 h)
        omega
      rw [cbcEncrypt, dif_neg hpt]
      have htk : (pt.take 16).length = 16 := by simp; omega
      have hxor : (xorBytes (pt.take 16) prev).length = 16 := by
        rw [xorBytes_length, htk, hprev]
        simp
      have hc : (E (xorBytes (pt.take 16) prev)).length = 16 := hElen _ hxor
      have hcne : E (xorBytes (pt.take 16) prev) ≠ [] := by
        intro h
        rw [h] at hc
        simp at hc
      rw [cbcDecrypt, dif_neg (by simp [hcne])]
      rw [List.take_left' hc, List.drop_left' hc]
      rw [hDE _ hxor, xorBytes_xorBytes_cancel _ _ (by rw [htk, hprev])]
      rw [ih (pt.drop 16) _ (by simp; omega) (by simp; omega) hc]
      exact List.take_append_drop 16 pt

/-- Round trip of the source's `decryptBuffer ∘ encryptBuffer`, for any block
permutation `E` with inverse `D` on 16-byte blocks (as AES-256 provides). -/
theorem decryptBuffer_encryptBuffer {E D : List Nat → List Nat}
    (hDE : ∀ b, b.length = 16 → D (E b) = b)
    (hElen : ∀ b, b.length = 16 → (E b).length = 16)
    (hEbytes : ∀ b, b.length = 16 → IsBytes b → IsBytes (E b))
    (iv x : List Nat) (hiv : iv.length = 16) (hivb : IsBytes iv) (hx : IsBytes x) :
    decryptBuffer D (encryptBuffer E iv x).data (encryptBuffer E iv x).iv = some x := by
  have hpadb : IsBytes (padBlock x) := padBlock_bytes hx
  have hpadm : (padBlock x).length % 16 = 0 := padBlock_length_mod x
  have hctb : IsBytes (cbcEncrypt E iv (padBlock x)) :=
    cbcEncrypt_bytes hElen hEbytes (padBlock x).length _ _ le_rfl hpadm hiv hpadb hivb
  have hctl : (cbcEncrypt E iv (padBlock x)).length = (padBlock x).length :=
    cbcEncrypt_length hElen (padBlock x).length _ _ le_rfl hpadm hiv
  rw [encryptBuffer, decryptBuffer]
  simp only
  rw [hexDecode_hexEncode hivb, hexDecode_hexEncode hctb]
  rw [if_pos ⟨hiv, by rw [hctl]; exact hpadm⟩]
  rw [cbcDecrypt_cbcEncrypt hDE hElen (padBlock x).length _ _ le_rfl hpadm hiv]
  exact unpadBlock_padBlock x

-- ==== Consent registry lemmas ====

theorem runOps_cons (E D : List Nat → List Nat) (s : ServerState) (op : Op) (ops : List Op) :
    runOps E D s (op :: ops) = runOps E D (applyOp E D s op) ops := by
  rw [runOps, List.foldl_cons, runOps]

theorem isActive_removePair_self (cs : List Consent) (p r : String) :
    isActive (removePair cs p r) p r = false := by
  rw [isActive, removePair, List.any_filter]
  rw [List.any_eq_false]
  intro c _
  by_cases h1 : c.patientId == p <;> by_cases h2 : c.providerId == r <;> simp_all

theorem isActive_removePair_other (cs : List Consent) {p r p' r' : String}
    (h : ¬(p = p' ∧ r = r')) :
    isActive (removePair cs p r) p' r' = isActive cs p' r' := by
  induction cs with
  | nil => rfl
  | cons c cs ih =>
    rw [removePair, List.filter_cons]
    by_cases hc : (c.patientId == p && c.providerId == r) = true
    · rw [if_neg (by simp [hc])]
      rw [show List.filter (fun c => !(c.patientId == p && c.providerId == r)) cs = removePair cs p r from rfl, ih]
      rw [isActive, isActive, List.any_cons]
      have hfalse : (c.patientId == p' && c.providerId == r' && c.granted) = false := by
        simp only [Bool.and_eq_true, beq_iff_eq] at hc
        simp only [hc.1, hc.2]
        have e1 : (p == p') = false ∨ (r == r') = false := by
          rcases not_and_or.1 h with h' | h'
          · exact Or.inl (beq_eq_false_iff_ne.2 h')
          · exact Or.inr (beq_eq_false_iff_ne.2 h')
        rcases e1 with e | e <;> simp [e]
      rw [hfalse, Bool.false_or]
    · rw [if_pos (by simp_all; tauto)]
      rw [isActive, isActive, List.any_cons, List.any_cons]
      rw [show List.filter (fun c => !(c.patientId == p && c.providerId == r)) cs = removePair cs p r from rfl]
      rw [show (removePair cs p r).any (fun c => c.patientId == p' && c.providerId == r' && c.granted) = isActive cs p' r' from ih]
      rfl

theorem isActive_update_self (cs : List Consent) (p r : String) (g : Bool) (now : Nat) :
    isActive (removePair cs p r ++ [⟨p, r, g, now⟩]) p r = g := by
  rw [isActive, List.any_append]
  rw [show (removePair cs p r).any (fun c => c.patientId == p && c.providerId == r && c.granted) = false from isActive_removePair_self cs p r]
  simp [isActive]

theorem isActive_update_other (cs : List Consent) {p r p' r' : String}
    (h : ¬(p = p' ∧ r = r')) (g : Bool) (now : Nat) :
    isActive (removePair cs p r ++ [⟨p, r, g, now⟩]) p' r' = isActive cs p' r' := by
  rw [isActive, List.any_append]
  rw [show (removePair cs p r).any (fun c => c.patientId == p' && c.providerId == r' && c.granted) = isActive cs p' r' from isActive_removePair_other cs h]
  have hone : ([(⟨p, r, g, now⟩ : Consent)]).any
      (fun c => c.patientId == p' && c.providerId == r' && c.granted) = false := by
    rcases not_and_or.1 h with h' | h' <;> simp_all
  rw [hone, Bool.or_comm, Bool.false_or]

theorem isActive_eq_false_of_forall {cs : List Consent} {p r : String}
    (h : ∀ c ∈ cs, ¬(c.patientId = p ∧ c.providerId = r)) :
    isActive cs p r = false := by
  rw [isActive, List.any_eq_false]
  intro c hc
  have hcc := h c hc
  by_cases h1 : c.patientId = p <;> by_cases h2 : c.providerId = r <;> simp_all

theorem addRecord_consents (E : List Nat → List Nat) (s : ServerState)
    (p r : String) (file : Option (List Nat)) (tmp rid tx : String)
    (iv : List Nat) (now : Nat) :
    (addRecord E s p r file tmp rid tx iv now).2.consents = s.consents := by
  rw [addRecord.eq_def]
  split
  · rfl
  · split
    · rfl
    · split <;> rfl

theorem listRecords_consents (s : ServerState) (p r tx : String) (now : Nat) :
    (listRecords s p r tx now).2.consents = s.consents := by
  rw [listRecords]
  split <;> rfl

theorem decryptRecord_consents (D : List Nat → List Nat) (s : ServerState)
    (rid pid tx : String) (now : Nat) :
    (decryptRecord D s rid pid tx now).2.consents = s.consents := by
  rw [decryptRecord.eq_def]
  split
  · rfl
  · split
    · rfl
    · split
      · split
        · rfl
        · split <;> rfl
      · rfl

theorem foldl_consentWriteStep (p r : String) :
    ∀ (ops : List Op) (acc : Option Bool),
      ops.foldl (consentWriteStep p r) acc = (lastConsentWrite ops p r).elim acc some := by
  intro ops
  induction ops with
  | nil => intro acc; rfl
  | cons op ops ih =>
    intro acc
    rw [List.foldl_cons, ih]
    have h2 : lastConsentWrite (op :: ops) p r =
        (lastConsentWrite ops p r).elim (consentWriteStep p r none op) some := by
      rw [lastConsentWrite, List.foldl_cons, ih]
    rw [h2]
    cases hl : lastConsentWrite ops p r with
    | some b => rfl
    | none =>
      simp only [Option.elim]
      cases op <;> simp only [consentWriteStep] <;> split <;> rfl

theorem runOps_isActive (E D : List Nat → List Nat) {p r : String}
    (hp : p ≠ "") (hr : r ≠ "") :
    ∀ (ops : List Op) (s : ServerState),
      isActive (runOps E D s ops).consents p r =
        (lastConsentWrite ops p r).getD (isActive s.consents p r) := by
  intro ops
  induction ops with
  | nil => intro s; rfl
  | cons op ops ih =>
    intro s
    rw [runOps_cons, ih]
    have h2 : lastConsentWrite (op :: ops) p r =
        (lastConsentWrite ops p r).elim (consentWriteStep p r none op) some := by
      rw [lastConsentWrite, List.foldl_cons, foldl_consentWriteStep]
    rw [h2]
    cases hl : lastConsentWrite ops p r with
    | some b => rfl
    | none =>
      simp only [Option.elim, Option.getD]
      cases op with
      | grant p' r' tx now =>
        by_cases hpair : p' = p ∧ r' = r
        · obtain ⟨hp', hr'⟩ := hpair
          subst hp'; subst hr'
          rw [consentWriteStep, if_pos (by simp [hp, hr])]
          simp only [applyOp]
          rw [grantConsent, if_neg (by simp [hp, hr])]
          exact isActive_update_self s.consents p' r' true now
        · rw [consentWriteStep, if_neg (by
            intro hc
            simp only [Bool.and_eq_true, beq_iff_eq] at hc
            exact hpair ⟨hc.1.1.1, hc.1.1.2⟩)]
          simp only [applyOp]
          rw [grantConsent]
          split
          · rfl
          · exact isActive_update_other s.consents hpair true now
      | revoke p' r' tx now =>
        by_cases hpair : p' = p ∧ r' = r
        · obtain ⟨hp', hr'⟩ := hpair
          subst hp'; subst hr'
          rw [consentWriteStep, if_pos (by simp [hp, hr])]
          simp only [applyOp]
          rw [revokeConsent, if_neg (by simp [hp, hr])]
          exact isActive_update_self s.consents p' r' false now
        · rw [consentWriteStep, if_neg (by
            intro hc
            simp only [Bool.and_eq_true, beq_iff_eq] at hc
            exact hpair ⟨hc.1.1.1, hc.1.1.2⟩)]
          simp only [applyOp]
          rw [revokeConsent]
          split
          · rfl
          · exact isActive_update_other s.consents hpair false now
      | add p' r' file tmp rid tx iv now =>
        simp only [consentWriteStep, applyOp]
        rw [addRecord_consents]
      | list p' r' tx now =>
        simp only [consentWriteStep, applyOp]
        rw [listRecords_consents]
      | decrypt rid pid tx now =>
        simp only [consentWriteStep, applyOp]
        rw [decryptRecord_consents]

/-- C1: after `grantConsent(p, r)` the check `isActive(p, r)` is true; after
a subsequent `revokeConsent(p, r)` it is false; after any sequence of
operations, `isActive(p, r)` equals the boolean of the most recent effective
grant/revoke on the pair; and if no grant/revoke was ever performed for the
pair, `isActive(p, r)` is false (fail-closed). -/
theorem consent_isActive_reflects_last_mutator
    (E D : List Nat → List Nat) (s : ServerState) (ops : List Op)
    (p r : String) (hp : p ≠ "") (hr : r ≠ "") :
    (∀ tx now, isActive ((grantConsent s p r tx now).2).consents p r = true) ∧
    (∀ tx now tx' now',
      isActive ((revokeConsent (grantConsent s p r tx now).2 p r tx' now').2).consents p r = false) ∧
    (isActive (runOps E D s ops).consents p r =
      (lastConsentWrite ops p r).getD (isActive s.consents p r)) ∧
    ((∀ c ∈ s.consents, ¬(c.patientId = p ∧ c.providerId = r)) →
      lastConsentWrite ops p r = none →
      isActive (runOps E D s ops).consents p r = false) := by
  refine ⟨?_, ?_, runOps_isActive E D hp hr ops s, ?_⟩
  · intro tx now
    rw [grantConsent, if_neg (by simp [hp, hr])]
    exact isActive_update_self s.consents p r true now
  · intro tx now tx' now'
    rw [revokeConsent, if_neg (by simp [hp, hr])]
    exact isActive_update_self _ p r false now'
  · intro hf hnone
    rw [runOps_isActive E D hp hr ops s, hnone, Option.getD]
    exact isActive_eq_false_of_forall hf

/-- Witness for C1 at a concrete trace: grant, revoke, grant leaves the pair
active; the empty trace from the bootstrap state leaves it inactive. -/
theorem consent_isActive_reflects_last_mutator_w :
    isActive (runOps id id initialState
      [.grant "pat-1" "doc-1" "t1" 0, .revoke "pat-1" "doc-1" "t2" 1,
       .grant "pat-1" "doc-1" "t3" 2]).consents "pat-1" "doc-1" = true ∧
    isActive (runOps id id initialState []).consents "pat-1" "doc-1" = false := by
  constructor
  · have h := consent_isActive_reflects_last_mutator id id initialState
      [.grant "pat-1" "doc-1" "t1" 0, .revoke "pat-1" "doc-1" "t2" 1,
       .grant "pat-1" "doc-1" "t3" 2] "pat-1" "doc-1" (by decide) (by decide)
    rw [h.2.2.1]
    rfl
  · have h := consent_isActive_reflects_last_mutator id id initialState []
      "pat-1" "doc-1" (by decide) (by decide)
    exact h.2.2.2 (by intro c hc; simp [initialState] at hc) rfl

/-- C9: grant/revoke with a missing (empty) patientId or providerId fail with
`InvalidArgument` and leave the state (consents, audit, ledger, everything)
unchanged; with both ids present they always succeed. -/
theorem consent_mutators_validation (s : ServerState) (p r tx : String) (now : Nat) :
    ((p = "" ∨ r = "") →
      grantConsent s p r tx now =
        (.error (.invalidArgument "patientId & providerId required"), s) ∧
      revokeConsent s p r tx now =
        (.error (.invalidArgument "patientId & providerId required"), s)) ∧
    (p ≠ "" → r ≠ "" →
      (grantConsent s p r tx now).1 = .ok tx ∧ (revokeConsent s p r tx now).1 = .ok tx) := by
  constructor
  · intro h
    have hb : (p == "" || r == "") = true := by rcases h with h | h <;> simp [h]
    constructor
    · rw [grantConsent, if_pos hb]
    · rw [revokeConsent, if_pos hb]
  · intro hp hr
    have hb : ¬((p == "" || r == "") = true) := by simp [hp, hr]
    constructor
    · rw [grantConsent, if_neg hb]
    · rw [revokeConsent, if_neg hb]

/-- Witness for C9: empty patientId is rejected with the state untouched;
present ids succeed. -/
theorem consent_mutators_validation_w :
    grantConsent initialState "" "doc-1" "t" 0 =
      (.error (.invalidArgument "patientId & providerId required"), initialState) ∧
    (grantConsent initialState "pat-1" "doc-1" "t" 0).1 = .ok "t" :=
  ⟨((consent_mutators_validation initialState "" "doc-1" "t" 0).1 (Or.inl rfl)).1,
   ((consent_mutators_validation initialState "pat-1" "doc-1" "t" 0).2
      (by decide) (by decide)).1⟩

theorem pairUnique_update {cs : List Consent} (p r : String) (g : Bool) (now : Nat)
    (h : PairUnique cs) :
    PairUnique (removePair cs p r ++ [⟨p, r, g, now⟩]) := by
  rw [PairUnique, List.pairwise_append]
  refine ⟨List.Pairwise.filter _ h, List.pairwise_singleton _ _, ?_⟩
  intro a ha b hb
  simp only [List.mem_singleton] at hb
  subst hb
  rw [removePair, List.mem_filter] at ha
  have := ha.2
  intro hcontra
  simp only [Bool.not_eq_true'] at this
  rw [Bool.and_eq_false_iff] at this
  rcases this with h' | h' <;> simp_all

/-- C10: across any sequence of operations, the in-memory consents list keeps
at most one entry per (patientId, providerId) pair: each mutator removes
every prior entry for the pair before appending the new one. -/
theorem consents_at_most_one_per_pair (E D : List Nat → List Nat)
    (s : ServerState) (ops : List Op) (h : PairUnique s.consents) :
    PairUnique (runOps E D s ops).consents := by
  induction ops generalizing s with
  | nil => exact h
  | cons op ops ih =>
    rw [runOps_cons]
    apply ih
    cases op with
    | grant p' r' tx now =>
      simp only [applyOp]
      rw [grantConsent]
      split
      · exact h
      · exact pairUnique_update p' r' true now h
    | revoke p' r' tx now =>
      simp only [applyOp]
      rw [revokeConsent]
      split
      · exact h
      · exact pairUnique_update p' r' false now h
    | add p' r' file tmp rid tx iv now =>
      simp only [applyOp]
      rw [addRecord_consents]
      exact h
    | list p' r' tx now =>
      simp only [applyOp]
      rw [listRecords_consents]
      exact h
    | decrypt rid pid tx now =>
      simp only [applyOp]
      rw [decryptRecord_consents]
      exact h

/-- Witness for C10 at a concrete trace with two grants on the same pair. -/
theorem consents_at_most_one_per_pair_w :
    PairUnique (runOps id id initialState
      [.grant "pat-1" "doc-1" "t1" 0, .grant "pat-1" "doc-1" "t2" 1]).consents :=
  consents_at_most_one_per_pair id id initialState _ List.Pairwise.nil

-- ==== Operation characterization lemmas ====

theorem grantConsent_ok {p r : String} (hp : p ≠ "") (hr : r ≠ "")
    (s : ServerState) (tx : String) (now : Nat) :
    grantConsent s p r tx now =
      (.ok tx,
        { s with
          consents := removePair s.consents p r ++ [⟨p, r, true, now⟩],
          audit := s.audit ++ [⟨tx, "GRANT_CONSENT", p, r, now⟩],
          ledger := s.ledger ++ [.consentGranted p r tx now] }) := by
  rw [grantConsent, if_neg (by simp [hp, hr])]

theorem revokeConsent_ok {p r : String} (hp : p ≠ "") (hr : r ≠ "")
    (s : ServerState) (tx : String) (now : Nat) :
    revokeConsent s p r tx now =
      (.ok tx,
        { s with
          consents := removePair s.consents p r ++ [⟨p, r, false, now⟩],
          audit := s.audit ++ [⟨tx, "REVOKE_CONSENT", p, r, now⟩],
          ledger := s.ledger ++ [.consentRevoked p r tx now] }) := by
  rw [revokeConsent, if_neg (by simp [hp, hr])]

theorem addRecord_denied {s : ServerState} {p r : String} (hp : p ≠ "") (hr : r ≠ "")
    (h : isActive s.consents p r = false) (E : List Nat → List Nat)
    (buf : List Nat) (tmp rid tx : String) (iv : List Nat) (now : Nat) :
    addRecord E s p r (some buf) tmp rid tx iv now = (.error .accessDenied, s) := by
  rw [addRecord.eq_def, if_neg (by simp [hp, hr])]
  dsimp only
  rw [h]
  rfl

theorem addRecord_ok {s : ServerState} {p r : String} (hp : p ≠ "") (hr : r ≠ "")
    (h : isActive s.consents p r = true) (E : List Nat → List Nat)
    (buf : List Nat) (tmp rid tx : String) (iv : List Nat) (now : Nat) :
    addRecord E s p r (some buf) tmp rid tx iv now =
      (.ok ⟨"0x" ++ rid, p, r, tmp ++ ".enc", now, (encryptBuffer E iv buf).iv⟩,
        { s with
          storage := writeBlob s.storage (tmp ++ ".enc") (encryptBuffer E iv buf),
          records := s.records ++ [⟨"0x" ++ rid, p, r, tmp ++ ".enc", now, (encryptBuffer E iv buf).iv⟩],
          audit := s.audit ++ [⟨tx, "ADD_RECORD", r, "0x" ++ rid, now⟩],
          ledger := s.ledger ++ [.recordAdded ("0x" ++ rid) tx now] }) := by
  rw [addRecord.eq_def, if_neg (by simp [hp, hr])]
  dsimp only
  rw [h]
  rfl

theorem listRecords_denied {s : ServerState} {p r : String}
    (h : isActive s.consents p r = false) (tx : String) (now : Nat) :
    listRecords s p r tx now = (.error .accessDenied, s) := by
  rw [listRecords, h]
  rfl

theorem listRecords_ok {s : ServerState} {p r : String}
    (h : isActive s.consents p r = true) (tx : String) (now : Nat) :
    listRecords s p r tx now =
      (.ok ((s.records.filter fun q => q.patientId == p).map Rec.toMeta),
        { s with
          audit := s.audit ++ [⟨tx, "READ_RECORDS", r, p, now⟩],
          ledger := s.ledger ++ [.readRecords p r tx now] }) := by
  rw [listRecords, h]
  rfl

theorem decryptRecord_noProvider {pid : String} (h : pid = "")
    (D : List Nat → List Nat) (s : ServerState) (rid tx : String) (now : Nat) :
    decryptRecord D s rid pid tx now =
      (.error (.invalidArgument "providerId query param required"), s) := by
  rw [decryptRecord.eq_def, if_pos (by simp [h])]

theorem decryptRecord_notFound {s : ServerState} {rid pid : String} (hpid : pid ≠ "")
    (hfind : s.records.find? (fun q => q.recordId == rid) = none)
    (D : List Nat → List Nat) (tx : String) (now : Nat) :
    decryptRecord D s rid pid tx now = (.error .notFound, s) := by
  rw [decryptRecord.eq_def, if_neg (by simp [hpid]), hfind]

theorem decryptRecord_denied {s : ServerState} {rid pid : String} {rc : Rec}
    (hpid : pid ≠ "")
    (hfind : s.records.find? (fun q => q.recordId == rid) = some rc)
    (hact : isActive s.consents rc.patientId pid = false)
    (D : List Nat → List Nat) (tx : String) (now : Nat) :
    decryptRecord D s rid pid tx now = (.error .accessDenied, s) := by
  rw [decryptRecord.eq_def, if_neg (by simp [hpid]), hfind]
  dsimp only
  rw [hact]
  rfl

theorem decryptRecord_storageMissing {s : ServerState} {rid pid : String} {rc : Rec}
    (hpid : pid ≠ "")
    (hfind : s.records.find? (fun q => q.recordId == rid) = some rc)
    (hact : isActive s.consents rc.patientId pid = true)
    (hst : s.storage.find? (fun kv => kv.1 == rc.filename) = none)
    (D : List Nat → List Nat) (tx : String) (now : Nat) :
    decryptRecord D s rid pid tx now = (.error .storageMissing, s) := by
  rw [decryptRecord.eq_def, if_neg (by simp [hpid]), hfind]
  dsimp only
  rw [hact, if_pos rfl, hst]

theorem decryptRecord_cipherFail {s : ServerState} {rid pid : String} {rc : Rec}
    {kv : String × EncFile}
    (hpid : pid ≠ "")
    (hfind : s.records.find? (fun q => q.recordId == rid) = some rc)
    (hact : isActive s.consents rc.patientId pid = true)
    (hst : s.storage.find? (fun kv => kv.1 == rc.filename) = some kv)
    (hdec : decryptBuffer D kv.2.data kv.2.iv = none)
    (tx : String) (now : Nat) :
    decryptRecord D s rid pid tx now = (.error .decryptionFailed, s) := by
  rw [decryptRecord.eq_def, if_neg (by simp [hpid]), hfind]
  dsimp only
  rw [hact, if_pos rfl, hst]
  dsimp only
  rw [hdec]

theorem decryptRecord_ok {s : ServerState} {rid pid : String} {rc : Rec}
    {kv : String × EncFile} {plain : List Nat}
    (hpid : pid ≠ "")
    (hfind : s.records.find? (fun q => q.recordId == rid) = some rc)
    (hact : isActive s.consents rc.patientId pid = true)
    (hst : s.storage.find? (fun kv => kv.1 == rc.filename) = some kv)
    (hdec : decryptBuffer D kv.2.data kv.2.iv = some plain)
    (tx : String) (now : Nat) :
    decryptRecord D s rid pid tx now =
      (.ok plain,
        { s with
          audit := s.audit ++ [⟨tx, "DOWNLOAD_DECRYPT", pid, rid, now⟩],
          ledger := s.ledger ++ [.downloadDecrypt rid tx pid now] }) := by
  rw [decryptRecord.eq_def, if_neg (by simp [hpid]), hfind]
  dsimp only
  rw [hact, if_pos rfl, hst]
  dsimp only
  rw [hdec]

theorem find?_writeBlob (st : List (String × EncFile)) (name : String) (blob : EncFile) :
    (writeBlob st name blob).find? (fun kv => kv.1 == name) = some (name, blob) := by
  rw [writeBlob, List.find?_append]
  have h1 : (st.filter fun kv => kv.1 != name).find? (fun kv => kv.1 == name) = none := by
    rw [List.find?_eq_none]
    intro kv hkv
    rw [List.mem_filter] at hkv
    have h2 := hkv.2
    simp_all
  rw [h1]
  simp [List.find?_cons]

theorem find?_records_fresh {recs : List Rec} {rid : String}
    (h : ∀ q ∈ recs, q.recordId ≠ rid) (rec : Rec) (hrec : rec.recordId = rid) :
    (recs ++ [rec]).find? (fun q => q.recordId == rid) = some rec := by
  rw [List.find?_append]
  have h1 : recs.find? (fun q => q.recordId == rid) = none := by
    rw [List.find?_eq_none]
    intro q hq
    simp [h q hq]
  rw [h1]
  simp [List.find?_cons, hrec]

/-- C4: every successful grantConsent, revokeConsent, addRecord, listRecords
or decryptRecord call appends exactly one audit entry and exactly one ledger
entry to the state it returns, both carrying the transaction id generated
for that call. -/
theorem ops_emit_paired_audit_ledger (E D : List Nat → List Nat) (s : ServerState) :
    (∀ p r tx now, (∃ v, (grantConsent s p r tx now).1 = Except.ok v) →
      ∃ a l, (grantConsent s p r tx now).2.audit = s.audit ++ [a] ∧
        (grantConsent s p r tx now).2.ledger = s.ledger ++ [l] ∧ a.txId = tx ∧ l.tx = tx) ∧
    (∀ p r tx now, (∃ v, (revokeConsent s p r tx now).1 = Except.ok v) →
      ∃ a l, (revokeConsent s p r tx now).2.audit = s.audit ++ [a] ∧
        (revokeConsent s p r tx now).2.ledger = s.ledger ++ [l] ∧ a.txId = tx ∧ l.tx = tx) ∧
    (∀ p r file tmp rid tx iv now,
      (∃ v, (addRecord E s p r file tmp rid tx iv now).1 = Except.ok v) →
      ∃ a l, (addRecord E s p r file tmp rid tx iv now).2.audit = s.audit ++ [a] ∧
        (addRecord E s p r file tmp rid tx iv now).2.ledger = s.ledger ++ [l] ∧
        a.txId = tx ∧ l.tx = tx) ∧
    (∀ p r tx now, (∃ v, (listRecords s p r tx now).1 = Except.ok v) →
      ∃ a l, (listRecords s p r tx now).2.audit = s.audit ++ [a] ∧
        (listRecords s p r tx now).2.ledger = s.ledger ++ [l] ∧ a.txId = tx ∧ l.tx = tx) ∧
    (∀ rid pid tx now, (∃ v, (decryptRecord D s rid pid tx now).1 = Except.ok v) →
      ∃ a l, (decryptRecord D s rid pid tx now).2.audit = s.audit ++ [a] ∧
        (decryptRecord D s rid pid tx now).2.ledger = s.ledger ++ [l] ∧
        a.txId = tx ∧ l.tx = tx) := by
  refine ⟨?_, ?_, ?_, ?_, ?_⟩
  · intro p r tx now h
    obtain ⟨v, hv⟩ := h
    by_cases hb : (p == "" || r == "") = true
    · rw [grantConsent, if_pos hb] at hv
      simp at hv
    · rw [grantConsent, if_neg hb]
      exact ⟨_, _, rfl, rfl, rfl, rfl⟩
  · intro p r tx now h
    obtain ⟨v, hv⟩ := h
    by_cases hb : (p == "" || r == "") = true
    · rw [revokeConsent, if_pos hb] at hv
      simp at hv
    · rw [revokeConsent, if_neg hb]
      exact ⟨_, _, rfl, rfl, rfl, rfl⟩
  · intro p r file tmp rid tx iv now h
    obtain ⟨v, hv⟩ := h
    by_cases hb : (p == "" || r == "") = true
    · rw [addRecord.eq_def, if_pos hb] at hv
      simp at hv
    · have hp : p ≠ "" := by intro e; apply hb; simp [e]
      have hr : r ≠ "" := by intro e; apply hb; simp [e]
      cases file with
      | none =>
        rw [addRecord.eq_def, if_neg hb] at hv
        simp at hv
      | some buf =>
        cases hact : isActive s.consents p r with
        | false =>
          rw [addRecord_denied hp hr hact E buf tmp rid tx iv now] at hv
          simp at hv
        | true =>
          rw [addRecord_ok hp hr hact E buf tmp rid tx iv now]
          exact ⟨_, _, rfl, rfl, rfl, rfl⟩
  · intro p r tx now h
    obtain ⟨v, hv⟩ := h
    cases hact : isActive s.consents p r with
    | false =>
      rw [listRecords_denied hact tx now] at hv
      simp at hv
    | true =>
      rw [listRecords_ok hact tx now]
      exact ⟨_, _, rfl, rfl, rfl, rfl⟩
  · intro rid pid tx now h
    obtain ⟨v, hv⟩ := h
    by_cases hpid : pid = ""
    · rw [decryptRecord_noProvider hpid D s rid tx now] at hv
      simp at hv
    · cases hfind : s.records.find? (fun q => q.recordId == rid) with
      | none =>
        rw [decryptRecord_notFound hpid hfind D tx now] at hv
        simp at hv
      | some rc =>
        cases hact : isActive s.consents rc.patientId pid with
        | false =>
          rw [decryptRecord_denied hpid hfind hact D tx now] at hv
          simp at hv
        | true =>
          cases hst : s.storage.find? (fun kv => kv.1 == rc.filename) with
          | none =>
            rw [decryptRecord_storageMissing hpid hfind hact hst D tx now] at hv
            simp at hv
          | some kv =>
            cases hdec : decryptBuffer D kv.2.data kv.2.iv with
            | none =>
              rw [decryptRecord_cipherFail hpid hfind hact hst hdec tx now] at hv
              simp at hv
            | some plain =>
              rw [decryptRecord_ok hpid hfind hact hst hdec tx now]
              exact ⟨_, _, rfl, rfl, rfl, rfl⟩

/-- Witness for C4: a successful concrete grant appends the matching audit
and ledger entries. -/
theorem ops_emit_paired_audit_ledger_w :
    ∃ a l, (grantConsent initialState "pat-1" "doc-1" "t1" 0).2.audit =
        initialState.audit ++ [a] ∧
      (grantConsent initialState "pat-1" "doc-1" "t1" 0).2.ledger =
        initialState.ledger ++ [l] ∧
      a.txId = "t1" ∧ l.tx = "t1" :=
  (ops_emit_paired_audit_ledger id id initialState).1 "pat-1" "doc-1" "t1" 0
    ⟨"t1", rfl⟩

theorem applyOp_ledger_extends (E D : List Nat → List Nat) (s : ServerState) (op : Op) :
    ∃ t, (applyOp E D s op).ledger = s.ledger ++ t := by
  cases op with
  | grant p r tx now =>
    simp only [applyOp]
    rw [grantConsent]
    split
    · exact ⟨[], by simp⟩
    · exact ⟨[.consentGranted p r tx now], rfl⟩
  | revoke p r tx now =>
    simp only [applyOp]
    rw [revokeConsent]
    split
    · exact ⟨[], by simp⟩
    · exact ⟨[.consentRevoked p r tx now], rfl⟩
  | add p r file tmp rid tx iv now =>
    simp only [applyOp]
    rw [addRecord.eq_def]
    split
    · exact ⟨[], by simp⟩
    · split
      · exact ⟨[], by simp⟩
      · split
        · exact ⟨[.recordAdded ("0x" ++ rid) tx now], rfl⟩
        · exact ⟨[], by simp⟩
  | list p r tx now =>
    simp only [applyOp]
    rw [listRecords]
    split
    · exact ⟨[.readRecords p r tx now], rfl⟩
    · exact ⟨[], by simp⟩
  | decrypt rid pid tx now =>
    simp only [applyOp]
    rw [decryptRecord.eq_def]
    split
    · exact ⟨[], by simp⟩
    · split
      · exact ⟨[], by simp⟩
      · split
        · split
          · exact ⟨[], by simp⟩
          · split
            · exact ⟨[], by simp⟩
            · exact ⟨[.downloadDecrypt rid tx pid now], rfl⟩
        · exact ⟨[], by simp⟩

/-- C8: the ledger is append-only: across any sequence of operations the
entries already readable stay in place unchanged, anything new is appended
at the end, and the entry count never decreases. -/
theorem ledger_append_only (E D : List Nat → List Nat) (s : ServerState) (ops : List Op) :
    ∃ t, readLedger (runOps E D s ops) = readLedger s ++ t ∧
      (readLedger s).length ≤ (readLedger (runOps E D s ops)).length := by
  induction ops generalizing s with
  | nil => exact ⟨[], by simp [runOps, readLedger]⟩
  | cons op ops ih =>
    obtain ⟨t1, h1⟩ := applyOp_ledger_extends E D s op
    obtain ⟨t2, h2, _⟩ := ih (applyOp E D s op)
    refine ⟨t1 ++ t2, ?_, ?_⟩
    · rw [runOps_cons]
      simp only [readLedger] at h2 ⊢
      rw [h2, h1, List.append_assoc]
    · rw [runOps_cons]
      simp only [readLedger] at h2 ⊢
      rw [h2, h1]
      simp [List.length_append]

/-- C5: decryptRecord fails with InvalidArgument on a missing providerId,
NotFound on an unknown recordId, AccessDenied without current consent,
StorageMissing when the blob is gone and DecryptionFailed when the cipher
errors, the checks applied in that order; every failure leaves the state
(audit and ledger included) unchanged. -/
theorem decryptRecord_error_order (D : List Nat → List Nat) (s : ServerState)
    (rid pid tx : String) (now : Nat) :
    (∀ e, (decryptRecord D s rid pid tx now).1 = .error e →
      (decryptRecord D s rid pid tx now).2 = s) ∧
    (pid = "" →
      (decryptRecord D s rid pid tx now).1 =
        .error (.invalidArgument "providerId query param required")) ∧
    (pid ≠ "" → s.records.find? (fun q => q.recordId == rid) = none →
      (decryptRecord D s rid pid tx now).1 = .error .notFound) ∧
    (∀ rc, pid ≠ "" → s.records.find? (fun q => q.recordId == rid) = some rc →
      isActive s.consents rc.patientId pid = false →
      (decryptRecord D s rid pid tx now).1 = .error .accessDenied) ∧
    (∀ rc, pid ≠ "" → s.records.find? (fun q => q.recordId == rid) = some rc →
      isActive s.consents rc.patientId pid = true →
      s.storage.find? (fun kv => kv.1 == rc.filename) = none →
      (decryptRecord D s rid pid tx now).1 = .error .storageMissing) ∧
    (∀ rc kv, pid ≠ "" → s.records.find? (fun q => q.recordId == rid) = some rc →
      isActive s.consents rc.patientId pid = true →
      s.storage.find? (fun kv => kv.1 == rc.filename) = some kv →
      decryptBuffer D kv.2.data kv.2.iv = none →
      (decryptRecord D s rid pid tx now).1 = .error .decryptionFailed) := by
  refine ⟨?_, ?_, ?_, ?_, ?_, ?_⟩
  · intro e he
    by_cases hpid : pid = ""
    · rw [decryptRecord_noProvider hpid D s rid tx now]
    · cases hfind : s.records.find? (fun q => q.recordId == rid) with
      | none => rw [decryptRecord_notFound hpid hfind D tx now]
      | some rc =>
        cases hact : isActive s.consents rc.patientId pid with
        | false => rw [decryptRecord_denied hpid hfind hact D tx now]
        | true =>
          cases hst : s.storage.find? (fun kv => kv.1 == rc.filename) with
          | none => rw [decryptRecord_storageMissing hpid hfind hact hst D tx now]
          | some kv =>
            cases hdec : decryptBuffer D kv.2.data kv.2.iv with
            | none => rw [decryptRecord_cipherFail hpid hfind hact hst hdec tx now]
            | some plain =>
              rw [decryptRecord_ok hpid hfind hact hst hdec tx now] at he
              simp at he
  · intro hpid
    rw [decryptRecord_noProvider hpid D s rid tx now]
  · intro hpid hfind
    rw [decryptRecord_notFound hpid hfind D tx now]
  · intro rc hpid hfind hact
    rw [decryptRecord_denied hpid hfind hact D tx now]
  · intro rc hpid hfind hact hst
    rw [decryptRecord_storageMissing hpid hfind hact hst D tx now]
  · intro rc kv hpid hfind hact hst hdec
    rw [decryptRecord_cipherFail hpid hfind hact hst hdec tx now]

/-- Witness for C5: unknown record id gives NotFound with the state intact;
missing providerId gives InvalidArgument. -/
theorem decryptRecord_error_order_w :
    (decryptRecord id initialState "0xdead" "doc-1" "t" 0).1 = .error .notFound ∧
    (decryptRecord id initialState "0xdead" "doc-1" "t" 0).2 = initialState ∧
    (decryptRecord id initialState "0xdead" "" "t" 0).1 =
      .error (.invalidArgument "providerId query param required") := by
  refine ⟨?_, ?_, ?_⟩
  · exact (decryptRecord_error_order id initialState "0xdead" "doc-1" "t" 0).2.2.1
      (by decide) rfl
  · exact (decryptRecord_error_order id initialState "0xdead" "doc-1" "t" 0).1
      .notFound ((decryptRecord_error_order id initialState "0xdead" "doc-1" "t" 0).2.2.1
        (by decide) rfl)
  · exact (decryptRecord_error_order id initialState "0xdead" "" "t" 0).2.1 rfl

theorem string_append_left_cancel {pre a b : String} (h : pre ++ a = pre ++ b) :
    a = b := by
  have hd := congrArg String.data h
  rw [String.data_append, String.data_append] at hd
  have h2 := List.append_cancel_left hd
  cases a
  cases b
  simp only at h2
  rw [h2]

/-- C6: addRecord fails with AccessDenied and changes nothing whenever no
active grant exists; with an active grant every (well-formed) addRecord call
succeeds; and two successful calls given distinct random draws return
distinct recordIds. -/
theorem addRecord_consent_gate (E : List Nat → List Nat) (s : ServerState)
    (p r : String) (hp : p ≠ "") (hr : r ≠ "")
    (buf : List Nat) (tmp rid tx : String) (iv : List Nat) (now : Nat) :
    (isActive s.consents p r = false →
      (addRecord E s p r (some buf) tmp rid tx iv now).1 = .error .accessDenied ∧
      (addRecord E s p r (some buf) tmp rid tx iv now).2 = s) ∧
    (isActive s.consents p r = true →
      ∃ rec1, (addRecord E s p r (some buf) tmp rid tx iv now).1 = .ok rec1 ∧
        rec1.recordId = "0x" ++ rid) ∧
    (∀ buf2 tmp2 rid2 tx2 iv2 now2 rec1 rec2 s1,
      rid ≠ rid2 →
      addRecord E s p r (some buf) tmp rid tx iv now = (.ok rec1, s1) →
      (addRecord E s1 p r (some buf2) tmp2 rid2 tx2 iv2 now2).1 = .ok rec2 →
      rec1.recordId ≠ rec2.recordId) := by
  refine ⟨?_, ?_, ?_⟩
  · intro hact
    rw [addRecord_denied hp hr hact E buf tmp rid tx iv now]
    exact ⟨rfl, rfl⟩
  · intro hact
    rw [addRecord_ok hp hr hact E buf tmp rid tx iv now]
    exact ⟨_, rfl, rfl⟩
  · intro buf2 tmp2 rid2 tx2 iv2 now2 rec1 rec2 s1 hrid h1 h2
    cases hact : isActive s.consents p r with
    | false =>
      rw [addRecord_denied hp hr hact E buf tmp rid tx iv now] at h1
      exact absurd (congrArg Prod.fst h1) (by simp)
    | true =>
      rw [addRecord_ok hp hr hact E buf tmp rid tx iv now] at h1
      have e1 : rec1.recordId = "0x" ++ rid := by
        have := congrArg Prod.fst h1
        simp only [Except.ok.injEq] at this
        rw [← this]
      cases hact2 : isActive s1.consents p r with
      | false =>
        rw [addRecord_denied hp hr hact2 E buf2 tmp2 rid2 tx2 iv2 now2] at h2
        simp at h2
      | true =>
        rw [addRecord_ok hp hr hact2 E buf2 tmp2 rid2 tx2 iv2 now2] at h2
        simp only [Except.ok.injEq] at h2
        have e2 : rec2.recordId = "0x" ++ rid2 := by rw [← h2]
        rw [e1, e2]
        intro hcontra
        exact hrid (string_append_left_cancel hcontra)

/-- Witness for C6: denied before the grant, succeeds after it with the
record id derived from the supplied draw. -/
theorem addRecord_consent_gate_w :
    (addRecord id initialState "pat-1" "doc-1" (some [1, 2]) "u1" "aa" "t1"
      (List.replicate 16 0) 0).1 = Except.error .accessDenied ∧
    (∃ rec1, (addRecord id (grantConsent initialState "pat-1" "doc-1" "tg" 0).2
      "pat-1" "doc-1" (some [1, 2]) "u1" "aa" "t1" (List.replicate 16 0) 1).1 =
        Except.ok rec1 ∧ rec1.recordId = "0x" ++ "aa") := by
  constructor
  · exact ((addRecord_consent_gate id initialState "pat-1" "doc-1"
      (by decide) (by decide) [1, 2] "u1" "aa" "t1" (List.replicate 16 0) 0).1 rfl).1
  · exact (addRecord_consent_gate id (grantConsent initialState "pat-1" "doc-1" "tg" 0).2
      "pat-1" "doc-1" (by decide) (by decide) [1, 2] "u1" "aa" "t1"
      (List.replicate 16 0) 1).2.1 rfl

/-- C3: decrypting what encryptBuffer produced returns the original bytes,
for every byte sequence; consequently decryptRecord on a freshly added
record, with consent still active, returns exactly the uploaded bytes. -/
theorem roundtrip_decrypt_encrypt
    (E D : List Nat → List Nat)
    (hDE : ∀ b, b.length = 16 → D (E b) = b)
    (hElen : ∀ b, b.length = 16 → (E b).length = 16)
    (hEbytes : ∀ b, b.length = 16 → IsBytes b → IsBytes (E b))
    (iv x : List Nat) (hiv : iv.length = 16) (hivb : IsBytes iv) (hx : IsBytes x) :
    decryptBuffer D (encryptBuffer E iv x).data (encryptBuffer E iv x).iv = some x ∧
    (∀ s p r tmp rid tx now rec1 s1 tx2 now2,
      addRecord E s p r (some x) tmp rid tx iv now = (.ok rec1, s1) →
      (∀ q ∈ s.records, q.recordId ≠ rec1.recordId) →
      (decryptRecord D s1 rec1.recordId r tx2 now2).1 = .ok x) := by
  have hrt := decryptBuffer_encryptBuffer hDE hElen hEbytes iv x hiv hivb hx
  refine ⟨hrt, ?_⟩
  intro s p r tmp rid tx now rec1 s1 tx2 now2 h1 hfresh
  by_cases hb : (p == "" || r == "") = true
  · rw [addRecord.eq_def, if_pos hb] at h1
    exact absurd (congrArg Prod.fst h1) (by simp)
  · have hp : p ≠ "" := fun e => hb (by simp [e])
    have hr : r ≠ "" := fun e => hb (by simp [e])
    cases hact : isActive s.consents p r with
    | false =>
      rw [addRecord_denied hp hr hact E x tmp rid tx iv now] at h1
      exact absurd (congrArg Prod.fst h1) (by simp)
    | true =>
      rw [addRecord_ok hp hr hact E x tmp rid tx iv now] at h1
      have hrec : rec1 =
          ⟨"0x" ++ rid, p, r, tmp ++ ".enc", now, (encryptBuffer E iv x).iv⟩ := by
        have h2 := congrArg Prod.fst h1
        simp only [Except.ok.injEq] at h2
        exact h2.symm
      have hs1 : s1 =
          { s with
            storage := writeBlob s.storage (tmp ++ ".enc") (encryptBuffer E iv x),
            records := s.records ++
              [⟨"0x" ++ rid, p, r, tmp ++ ".enc", now, (encryptBuffer E iv x).iv⟩],
            audit := s.audit ++ [⟨tx, "ADD_RECORD", r, "0x" ++ rid, now⟩],
            ledger := s.ledger ++ [.recordAdded ("0x" ++ rid) tx now] } := by
        have h2 := congrArg Prod.snd h1
        exact h2.symm
      subst hrec
      subst hs1
      rw [decryptRecord_ok hr
        (find?_records_fresh hfresh _ rfl)
        hact
        (find?_writeBlob s.storage (tmp ++ ".enc") (encryptBuffer E iv x))
        hrt tx2 now2]

/-- Witness for C3 with the identity block permutation, a zero IV and the
bytes [1, 2, 3]. -/
theorem roundtrip_decrypt_encrypt_w :
    decryptBuffer id (encryptBuffer id (List.replicate 16 0) [1, 2, 3]).data
      (encryptBuffer id (List.replicate 16 0) [1, 2, 3]).iv = some [1, 2, 3] :=
  (roundtrip_decrypt_encrypt id id (fun _ _ => rfl) (fun _ h => h) (fun _ _ hb => hb)
    (List.replicate 16 0) [1, 2, 3] (by decide) (by decide) (by decide)).1

/-- C2: after an upload under an active grant and a subsequent revocation,
decryptRecord for that record fails with AccessDenied, the record metadata
and its blob are still stored, and listRecords for the same patient by a
different provider whose consent is still active succeeds and includes the
record. -/
theorem revoke_blocks_future_decrypt
    (E D : List Nat → List Nat) (s : ServerState) (p r r2 : String)
    (buf : List Nat) (tmp rid tx : String) (iv : List Nat) (now : Nat)
    (rec1 : Rec) (s1 : ServerState)
    (hadd : addRecord E s p r (some buf) tmp rid tx iv now = (.ok rec1, s1))
    (hfresh : ∀ q ∈ s.records, q.recordId ≠ rec1.recordId)
    (tx2 : String) (now2 : Nat) (tx3 : String) (now3 : Nat) :
    (decryptRecord D (revokeConsent s1 p r tx2 now2).2 rec1.recordId r tx3 now3).1 =
      .error .accessDenied ∧
    rec1 ∈ (revokeConsent s1 p r tx2 now2).2.records ∧
    (∃ blob, (rec1.filename, blob) ∈ (revokeConsent s1 p r tx2 now2).2.storage) ∧
    (r2 ≠ r → isActive s.consents p r2 = true →
      ∃ v, (listRecords (revokeConsent s1 p r tx2 now2).2 p r2 tx3 now3).1 = .ok v ∧
        rec1.toMeta ∈ v) := by
  by_cases hb : (p == "" || r == "") = true
  · rw [addRecord.eq_def, if_pos hb] at hadd
    exact absurd (congrArg Prod.fst hadd) (by simp)
  · have hp : p ≠ "" := fun e => hb (by simp [e])
    have hr : r ≠ "" := fun e => hb (by simp [e])
    cases hact : isActive s.consents p r with
    | false =>
      rw [addRecord_denied hp hr hact E buf tmp rid tx iv now] at hadd
      exact absurd (congrArg Prod.fst hadd) (by simp)
    | true =>
      rw [addRecord_ok hp hr hact E buf tmp rid tx iv now] at hadd
      have hrec : rec1 =
          ⟨"0x" ++ rid, p, r, tmp ++ ".enc", now, (encryptBuffer E iv buf).iv⟩ := by
        have h2 := congrArg Prod.fst hadd
        simp only [Except.ok.injEq] at h2
        exact h2.symm
      have hs1 : s1 =
          { s with
            storage := writeBlob s.storage (tmp ++ ".enc") (encryptBuffer E iv buf),
            records := s.records ++
              [⟨"0x" ++ rid, p, r, tmp ++ ".enc", now, (encryptBuffer E iv buf).iv⟩],
            audit := s.audit ++ [⟨tx, "ADD_RECORD", r, "0x" ++ rid, now⟩],
            ledger := s.ledger ++ [.recordAdded ("0x" ++ rid) tx now] } := by
        have h2 := congrArg Prod.snd hadd
        exact h2.symm
      subst hrec
      subst hs1
      rw [revokeConsent_ok hp hr]
      refine ⟨?_, ?_, ?_, ?_⟩
      · rw [decryptRecord_denied hr
          (find?_records_fresh hfresh _ rfl)
          (isActive_update_self _ p r false now2) D tx3 now3]
      · simp
      · exact ⟨encryptBuffer E iv buf, by simp [writeBlob]⟩
      · intro hne hact2
        have hact3 : isActive (removePair s.consents p r ++ [⟨p, r, false, now2⟩]) p r2 = true := by
          rw [isActive_update_other s.consents (fun hc => hne hc.2.symm) false now2]
          exact hact2
        rw [listRecords_ok hact3 tx3 now3]
        refine ⟨_, rfl, ?_⟩
        rw [List.mem_map]
        refine ⟨⟨"0x" ++ rid, p, r, tmp ++ ".enc", now, (encryptBuffer E iv buf).iv⟩, ?_, rfl⟩
        rw [List.mem_filter]
        exact ⟨by simp, by simp⟩

/-- Witness for C2: concrete pipeline — grant to doc-1 and doc-2, upload via
doc-1, revoke doc-1; the decrypt by doc-1 is then denied. -/
theorem revoke_blocks_future_decrypt_w :
    (decryptRecord id
      (revokeConsent
        (addRecord id
          (grantConsent (grantConsent initialState "pat-1" "doc-1" "tg" 0).2
            "pat-1" "doc-2" "tg2" 0).2
          "pat-1" "doc-1" (some [1]) "u1" "aa" "t1" (List.replicate 16 0) 1).2
        "pat-1" "doc-1" "t2" 2).2
      "0xaa" "doc-1" "t3" 3).1 = .error .accessDenied := by
  have h := revoke_blocks_future_decrypt id id
    (grantConsent (grantConsent initialState "pat-1" "doc-1" "tg" 0).2
      "pat-1" "doc-2" "tg2" 0).2
    "pat-1" "doc-1" "doc-2" [1] "u1" "aa" "t1" (List.replicate 16 0) 1
    ⟨"0xaa", "pat-1", "doc-1", "u1.enc", 1, (encryptBuffer id (List.replicate 16 0) [1]).iv⟩
    (addRecord id
      (grantConsent (grantConsent initialState "pat-1" "doc-1" "tg" 0).2
        "pat-1" "doc-2" "tg2" 0).2
      "pat-1" "doc-1" (some [1]) "u1" "aa" "t1" (List.replicate 16 0) 1).2
    rfl
    (by
      intro q hq
      have e : (grantConsent (grantConsent initialState "pat-1" "doc-1" "tg" 0).2
          "pat-1" "doc-2" "tg2" 0).2.records = [] := rfl
      rw [e] at hq
      exact absurd hq (List.not_mem_nil q))
    "t2" 2 "t3" 3
  exact h.1

/-- C7: the concrete scenario: from the bootstrap state (no grants, empty
ledger), addRecord is denied; grantConsent returns its transaction id and
makes isActive true; addRecord then succeeds with record id 0xab12;
decryptRecord returns the bytes of "hello"; revokeConsent returns its
transaction id; decryptRecord is then denied; and the ledger holds exactly
the four entries grant, add, decrypt, revoke, in order. -/
theorem concrete_scenario (E D : List Nat → List Nat)
    (hDE : ∀ b, b.length = 16 → D (E b) = b)
    (hElen : ∀ b, b.length = 16 → (E b).length = 16)
    (hEbytes : ∀ b, b.length = 16 → IsBytes b → IsBytes (E b)) :
    (addRecord E initialState "pat-1" "doc-1" (some scnHello) "up0" "zz00" "tx0" scnIv 0).1 =
      .error .accessDenied ∧
    (grantConsent initialState "pat-1" "doc-1" "tx1" 1).1 = .ok "tx1" ∧
    isActive scnS1.consents "pat-1" "doc-1" = true ∧
    (∃ rec1, (addRecord E scnS1 "pat-1" "doc-1" (some scnHello) "up1" "ab12" "tx2" scnIv 2).1 =
      .ok rec1 ∧ rec1.recordId = "0xab12") ∧
    (decryptRecord D (scnS2 E) "0xab12" "doc-1" "tx3" 3).1 = .ok scnHello ∧
    (revokeConsent (scnS3 E D) "pat-1" "doc-1" "tx4" 4).1 = .ok "tx4" ∧
    (decryptRecord D (scnS4 E D) "0xab12" "doc-1" "tx5" 5).1 = .error .accessDenied ∧
    readLedger (scnS4 E D) =
      [.consentGranted "pat-1" "doc-1" "tx1" 1,
       .recordAdded "0xab12" "tx2" 2,
       .downloadDecrypt "0xab12" "tx3" "doc-1" 3,
       .consentRevoked "pat-1" "doc-1" "tx4" 4] := by
  have hp : ("pat-1" : String) ≠ "" := by decide
  have hr : ("doc-1" : String) ≠ "" := by decide
  have h0 : isActive initialState.consents "pat-1" "doc-1" = false := rfl
  have h3 : isActive scnS1.consents "pat-1" "doc-1" = true := rfl
  have hrt : decryptBuffer D (encryptBuffer E scnIv scnHello).data
      (encryptBuffer E scnIv scnHello).iv = some scnHello :=
    decryptBuffer_encryptBuffer hDE hElen hEbytes scnIv scnHello
      (by decide) (by decide) (by decide)
  have hfind2 : (scnS2 E).records.find? (fun q => q.recordId == "0xab12") =
      some ⟨"0x" ++ "ab12", "pat-1", "doc-1", "up1" ++ ".enc", 2,
        (encryptBuffer E scnIv scnHello).iv⟩ := rfl
  have hact2 : isActive (scnS2 E).consents
      ((⟨"0x" ++ "ab12", "pat-1", "doc-1", "up1" ++ ".enc", 2,
        (encryptBuffer E scnIv scnHello).iv⟩ : Rec)).patientId "doc-1" = true := rfl
  have hst2 : (scnS2 E).storage.find?
      (fun kv => kv.1 == (⟨"0x" ++ "ab12", "pat-1", "doc-1", "up1" ++ ".enc", 2,
        (encryptBuffer E scnIv scnHello).iv⟩ : Rec).filename) =
      some ("up1" ++ ".enc", encryptBuffer E scnIv scnHello) := rfl
  have hdec2 : decryptBuffer D
      ((("up1" ++ ".enc", encryptBuffer E scnIv scnHello) : String × EncFile)).2.data
      ((("up1" ++ ".enc", encryptBuffer E scnIv scnHello) : String × EncFile)).2.iv =
      some scnHello := hrt
  have hdecOK := decryptRecord_ok hr hfind2 hact2 hst2 hdec2 "tx3" 3
  have hS3 : scnS3 E D =
      { scnS2 E with
        audit := (scnS2 E).audit ++ [⟨"tx3", "DOWNLOAD_DECRYPT", "doc-1", "0xab12", 3⟩],
        ledger := (scnS2 E).ledger ++ [.downloadDecrypt "0xab12" "tx3" "doc-1" 3] } := by
    rw [show scnS3 E D = (decryptRecord D (scnS2 E) "0xab12" "doc-1" "tx3" 3).2 from rfl,
      hdecOK]
  have hS4 : scnS4 E D =
      { scnS2 E with
        consents := removePair (scnS3 E D).consents "pat-1" "doc-1" ++
          [⟨"pat-1", "doc-1", false, 4⟩],
        audit := ((scnS2 E).audit ++ [⟨"tx3", "DOWNLOAD_DECRYPT", "doc-1", "0xab12", 3⟩]) ++
          [⟨"tx4", "REVOKE_CONSENT", "pat-1", "doc-1", 4⟩],
        ledger := ((scnS2 E).ledger ++ [.downloadDecrypt "0xab12" "tx3" "doc-1" 3]) ++
          [.consentRevoked "pat-1" "doc-1" "tx4" 4] } := by
    rw [show scnS4 E D = (revokeConsent (scnS3 E D) "pat-1" "doc-1" "tx4" 4).2 from rfl]
    rw [revokeConsent_ok hp hr]
    rw [hS3]
  have hfind4 : (scnS4 E D).records.find? (fun q => q.recordId == "0xab12") =
      some ⟨"0x" ++ "ab12", "pat-1", "doc-1", "up1" ++ ".enc", 2,
        (encryptBuffer E scnIv scnHello).iv⟩ := by
    rw [hS4]
    exact hfind2
  have hact4 : isActive (scnS4 E D).consents
      ((⟨"0x" ++ "ab12", "pat-1", "doc-1", "up1" ++ ".enc", 2,
        (encryptBuffer E scnIv scnHello).iv⟩ : Rec)).patientId "doc-1" = false := by
    rw [hS4]
    exact isActive_update_self (scnS3 E D).consents "pat-1" "doc-1" false 4
  refine ⟨?_, ?_, h3, ?_, ?_, ?_, ?_, ?_⟩
  · rw [addRecord_denied hp hr h0 E scnHello "up0" "zz00" "tx0" scnIv 0]
  · rw [grantConsent_ok hp hr]
  · exact ⟨_, by rw [addRecord_ok hp hr h3 E scnHello "up1" "ab12" "tx2" scnIv 2], rfl⟩
  · rw [hdecOK]
  · rw [revokeConsent_ok hp hr]
  · rw [decryptRecord_denied hr hfind4 hact4 D "tx5" 5]
  · rw [show readLedger (scnS4 E D) = (scnS4 E D).ledger from rfl, hS4]
    rfl

/-- Witness for C7 with the identity block permutation. -/
theorem concrete_scenario_w :
    (decryptRecord id (scnS2 id) "0xab12" "doc-1" "tx3" 3).1 = .ok scnHello ∧
    readLedger (scnS4 id id) =
      [.consentGranted "pat-1" "doc-1" "tx1" 1,
       .recordAdded "0xab12" "tx2" 2,
       .downloadDecrypt "0xab12" "tx3" "doc-1" 3,
       .consentRevoked "pat-1" "doc-1" "tx4" 4] := by
  have h := concrete_scenario id id (fun _ _ => rfl) (fun _ h => h) (fun _ _ hb => hb)
  exact ⟨h.2.2.2.2.1, h.2.2.2.2.2.2.2⟩

end HealthChain
